import Mathlib

/-!
Shallow embedding of the voice-synced teleprompter's alignment core:
the text normalizer and fuzzy window matcher from `server.js`, the
decision logic of the `POST /transcribe` route, and the client-side
position tracking from the frontend application (chunk processing,
jump, reset, start, stop).  Machine numbers are modelled over `ℚ`, `ℤ`
and `ℕ`; the ASR collaborator is opaque, so the functions take the
transcript text it produced as input.
-/

namespace Teleprompter

/-- JS word-character class `\w`: ASCII letters, digits and underscore. -/
def isWordChar (c : Char) : Bool := c.isAlphanum || c = '_'

/-- JS whitespace class `\s` (ASCII subset relevant to the normalizer). -/
def isSpaceChar (c : Char) : Bool := c.isWhitespace

/-- Lowercase every character, then drop characters matched by `[^\w\s]`
(the `.toLowerCase().replace(/[^\w\s]/g, '')` steps of `normalizeText`). -/
def stripChars (l : List Char) : List Char :=
  (l.map Char.toLower).filter (fun c => isWordChar c || isSpaceChar c)

/-- Replace every maximal run of whitespace by a single space
(the `.replace(/\s+/g, ' ')` step of `normalizeText`). -/
def squeezeSpaces : List Char → List Char
  | [] => []
  | [c] => [if isSpaceChar c then ' ' else c]
  | c1 :: c2 :: rest =>
    if isSpaceChar c1 && isSpaceChar c2 then squeezeSpaces (c2 :: rest)
    else (if isSpaceChar c1 then ' ' else c1) :: squeezeSpaces (c2 :: rest)

/-- Drop leading and trailing whitespace (the `.trim()` step of `normalizeText`). -/
def trimSpaces (l : List Char) : List Char :=
  ((l.dropWhile isSpaceChar).reverse.dropWhile isSpaceChar).reverse

/-- `normalizeText` from `server.js`: lowercase, remove punctuation,
collapse whitespace, trim. -/
def normalizeText (s : String) : String :=
  String.mk (trimSpaces (squeezeSpaces (stripChars s.toList)))

/-- JS `split(' ')` on a character list: cut at every single space. -/
def splitOnSpace : List Char → List (List Char)
  | [] => [[]]
  | c :: rest =>
    match splitOnSpace rest with
    | [] => [[c]]
    | w :: ws => if c = ' ' then [] :: w :: ws else (c :: w) :: ws

/-- Transcript tokenization inside `calculateMatch`:
`normalizeText(transcript).split(' ').filter(w => w.length > 0)`. -/
def transcriptTokens (s : String) : List String :=
  ((splitOnSpace (normalizeText s).toList).map String.mk).filter
    (fun w => decide (w.length > 0))

/-- JS `String.prototype.trim`, modelled at the character level so that
it evaluates by kernel reduction. -/
def jsTrim (s : String) : String := String.mk (trimSpaces s.toList)

/-- Contiguous-sublist test on character lists, used to model
JS `String.prototype.includes`. -/
def containsSub (needle : List Char) : List Char → Bool
  | [] => needle.isEmpty
  | c :: t => needle.isPrefixOf (c :: t) || containsSub needle t

/-- JS `a.includes(b)`: does `a` contain `b` as a contiguous substring? -/
def jsIncludes (a b : String) : Bool := containsSub b.toList a.toList

/-- Result of one matching attempt: the score and the (window-relative)
candidate start index, `none` when no candidate improved on 0. -/
structure MatchResult where
  score : ℚ
  matchedIndex : Option ℕ
  deriving Repr, DecidableEq

/-- One iteration of the inner token walk of `calculateMatch`
(`server.js` lines 90–114): compare transcript token `t` with the
(normalized) window word at the cursor and return
`(credit earned, new cursor)`.  Exact match earns `+1` and advances by
1; substring partial match earns `+0.5` and advances by 1; when instead
the *next* window word matches, skip-credit `+0.8` advances by 2;
otherwise, when a next window word exists, no credit and advance by 1;
when the cursor is on the last window word and nothing matched, no
branch of the source's `if`/`else if` chain fires, so the cursor stays
where it is. -/
def matchStep (scriptWords : List String) (t : String) (position : ℕ) : ℚ × ℕ :=
  if h : position < scriptWords.length then
    let scriptWord := normalizeText (scriptWords.get ⟨position, h⟩)
    if scriptWord = t then (1, position + 1)
    else if jsIncludes scriptWord t || jsIncludes t scriptWord then (1/2, position + 1)
    else if h2 : position + 1 < scriptWords.length then
      if normalizeText (scriptWords.get ⟨position + 1, h2⟩) = t then (4/5, position + 2)
      else (0, position + 1)
    else (0, position)
  else (0, position)

/-- The inner loop of `calculateMatch`: walk the transcript tokens in
order from cursor `position`, accumulating credit; the loop guard
`position < scriptWords.length` is re-checked before every token. -/
def walkTokens (scriptWords : List String) : List String → ℕ → ℚ
  | [], _ => 0
  | t :: rest, position =>
    if position < scriptWords.length then
      (matchStep scriptWords t position).1 +
        walkTokens scriptWords rest (matchStep scriptWords t position).2
    else 0

/-- Candidate-selection step of `calculateMatch`'s outer loop: score the
walk starting at `i` as `credit / number of transcript tokens` and keep
it only on a strict improvement (`score > bestScore`, first maximum
wins). -/
def bestCandidate (scriptWords ts : List String) (best : MatchResult) (i : ℕ) :
    MatchResult :=
  let score := walkTokens scriptWords ts i / (ts.length : ℚ)
  if score > best.score then ⟨score, some i⟩ else best

/-- `calculateMatch` from `server.js`: tokenize the transcript (an empty
token list returns `{score: 0, matchedIndex: null}` immediately), then
try every candidate start position `0 ≤ i < scriptWords.length`,
starting from `bestScore = 0`, `bestIndex = null`. -/
def calculateMatch (transcript : String) (scriptWords : List String) : MatchResult :=
  let ts := transcriptTokens transcript
  if ts = [] then ⟨0, none⟩
  else (List.range scriptWords.length).foldl (bestCandidate scriptWords ts) ⟨0, none⟩

/-- Playback state reported by the `/transcribe` route. -/
inductive RespState
  | RUNNING
  | PAUSED
  deriving Repr, DecidableEq

/-- JSON body of a successful `/transcribe` response. -/
structure TranscribeResponse where
  transcript : String
  confidence : ℚ
  matchedIndex : Option ℤ
  state : RespState
  deriving Repr, DecidableEq

/-- Decision logic of the `POST /transcribe` handler (`server.js` lines
161–190), starting from the transcript the ASR collaborator returned:
an empty (whitespace-only) transcript short-circuits to `PAUSED` with a
null index; otherwise the state is `RUNNING` exactly when the match
score reaches the threshold, and the absolute matched index
`currentIndex + matchResult.matchedIndex` is reported only when the
relative index is non-null and the state is `RUNNING`. -/
def transcribeRoute (transcript : String) (scriptWindow : List String)
    (currentIndex : ℤ) (threshold : ℚ) : TranscribeResponse :=
  if jsTrim transcript = "" then
    { transcript := "", confidence := 0, matchedIndex := none, state := .PAUSED }
  else
    let matchResult := calculateMatch transcript scriptWindow
    let state : RespState := if matchResult.score ≥ threshold then .RUNNING else .PAUSED
    let absoluteMatchedIndex : Option ℤ :=
      match matchResult.matchedIndex with
      | some k => if state = .RUNNING then some (currentIndex + k) else none
      | none => none
    { transcript := transcript, confidence := matchResult.score,
      matchedIndex := absoluteMatchedIndex, state := state }

/-- Client-side status (`state.status` in the frontend). -/
inductive ClientStatus
  | IDLE
  | RUNNING
  | PAUSED
  deriving Repr, DecidableEq

/-- The fields of the frontend's mutable `state` object that the
alignment core reads and writes. -/
structure ClientState where
  status : ClientStatus
  scriptWords : List String
  currentWordIndex : ℤ
  deriving Repr, DecidableEq

/-- `CONFIG.matchingWindow`: 30 words. -/
def matchingWindow : ℤ := 30

/-- `CONFIG.matchThreshold`: 0.6. -/
def matchThreshold : ℚ := 3/5

/-- Clamp one JS `Array.prototype.slice` argument into `[0, length]`:
a negative argument counts from the end (floored at 0), a positive one
is capped at the length. -/
def jsSliceIndex (len : ℕ) (i : ℤ) : ℕ :=
  if i < 0 then ((len : ℤ) + i).toNat else min i.toNat len

/-- JS `arr.slice(start, stop)` on a list of words. -/
def jsSlice (l : List String) (start stop : ℤ) : List String :=
  (l.take (jsSliceIndex l.length stop)).drop (jsSliceIndex l.length start)

/-- Result-handling step of `processAudioChunk`: on a `RUNNING` response
with a non-null matched index, advance `currentWordIndex` past the
matched word and resume; in every other case pause, leaving
`currentWordIndex` untouched. -/
def applyResult (st : ClientState) (result : TranscribeResponse) : ClientState :=
  match result.state, result.matchedIndex with
  | .RUNNING, some k => { st with currentWordIndex := k + 1, status := .RUNNING }
  | _, _ => { st with status := .PAUSED }

/-- One request/response round trip, as `processAudioChunk` performs it:
the client sends its current position as the `currentIndex` form field
(which is also the window's start), the route answers, and the client
applies the result. -/
def applyTranscription (st : ClientState) (transcript : String)
    (scriptWindow : List String) (threshold : ℚ) : ClientState :=
  applyResult st (transcribeRoute transcript scriptWindow st.currentWordIndex threshold)

/-- `processAudioChunk` as a function of the transcript the ASR
collaborator produced for the chunk: derive the matching window
`scriptWords.slice(currentWordIndex, min(currentWordIndex + 30, length))`
from the current position, call `/transcribe` with the configured
threshold, and apply the result. -/
def processChunk (st : ClientState) (transcript : String) : ClientState :=
  let windowStart := st.currentWordIndex
  let windowEnd := min (st.currentWordIndex + matchingWindow) (st.scriptWords.length : ℤ)
  applyTranscription st transcript (jsSlice st.scriptWords windowStart windowEnd)
    matchThreshold

/-- `jumpToWord` from the frontend: assign the given index to
`currentWordIndex` (the source performs no clamping). -/
def jumpToWord (st : ClientState) (index : ℤ) : ClientState :=
  { st with currentWordIndex := index }

/-- `resetPosition` from the frontend: back to the first word. -/
def resetPosition (st : ClientState) : ClientState :=
  { st with currentWordIndex := 0 }

/-- State effect of `startTeleprompter` on the tracked fields
(successful microphone path): status becomes `RUNNING`. -/
def startTeleprompter (st : ClientState) : ClientState :=
  { st with status := .RUNNING }

/-- State effect of `stopTeleprompter` on the tracked fields: status
becomes `IDLE`. -/
def stopTeleprompter (st : ClientState) : ClientState :=
  { st with status := .IDLE }

/-- A chunk's transcription result tagged with the chunk's sequence
number (the spec's `AudioChunk.sequence`; the frontend itself keeps no
such number). -/
structure ChunkResult where
  sequence : ℕ
  response : TranscribeResponse
  deriving Repr, DecidableEq

/-- The frontend applies every `/transcribe` response as soon as its
fetch completes: `processAudioChunk` updates the state inline with no
sequence check, hold-back buffer, or discard of stale results.  Given
the results in completion (arrival) order, fold `applyResult` over them
and record the order in which sequence numbers were applied to the
position tracker. -/
def applyArrivals (st : ClientState) : List ChunkResult → ClientState × List ℕ
  | [] => (st, [])
  | r :: rest =>
    let next := applyArrivals (applyResult st r.response) rest
    (next.1, r.sequence :: next.2)

/-- The six-word script of the spec's end-to-end scenario. -/
def demoScript : List String := ["Hello", "world", "this", "is", "a", "test"]

/-- Client state at the start of the end-to-end scenario: capturing,
position 0. -/
def demoState : ClientState := ⟨.RUNNING, demoScript, 0⟩

lemma matchStep_credit_nonneg (sw : List String) (t : String) (pos : ℕ) :
    0 ≤ (matchStep sw t pos).1 := by
  simp only [matchStep]
  split_ifs <;> norm_num

lemma matchStep_credit_le_one (sw : List String) (t : String) (pos : ℕ) :
    (matchStep sw t pos).1 ≤ 1 := by
  simp only [matchStep]
  split_ifs <;> norm_num

lemma walkTokens_nonneg (sw : List String) :
    ∀ (ts : List String) (pos : ℕ), 0 ≤ walkTokens sw ts pos
  | [], _ => by simp [walkTokens]
  | t :: rest, pos => by
    simp only [walkTokens]
    split_ifs with h
    · have h1 := matchStep_credit_nonneg sw t pos
      have h2 := walkTokens_nonneg sw rest (matchStep sw t pos).2
      linarith
    · exact le_refl 0

lemma walkTokens_le_length (sw : List String) :
    ∀ (ts : List String) (pos : ℕ), walkTokens sw ts pos ≤ (ts.length : ℚ)
  | [], _ => by simp [walkTokens]
  | t :: rest, pos => by
    simp only [walkTokens]
    split_ifs with h
    · have h1 := matchStep_credit_le_one sw t pos
      have h2 := walkTokens_le_length sw rest (matchStep sw t pos).2
      push_cast [List.length_cons]
      linarith
    · push_cast [List.length_cons]
      positivity

lemma bestFold_invariant (sw ts : List String) (hts : ts ≠ []) (l : List ℕ) :
    ∀ b : MatchResult, 0 ≤ b.score → b.score ≤ 1 →
      (b.matchedIndex = none ↔ b.score = 0) →
      0 ≤ (l.foldl (bestCandidate sw ts) b).score ∧
        (l.foldl (bestCandidate sw ts) b).score ≤ 1 ∧
        ((l.foldl (bestCandidate sw ts) b).matchedIndex = none ↔
          (l.foldl (bestCandidate sw ts) b).score = 0) := by
  induction l with
  | nil => intro b h0 h1 h2; simpa using ⟨h0, h1, h2⟩
  | cons i rest ih =>
    intro b h0 h1 h2
    rw [List.foldl_cons]
    have hlen : 0 < (ts.length : ℚ) := by
      have : 0 < ts.length := List.length_pos.mpr hts
      exact_mod_cast this
    have hcand0 : 0 ≤ walkTokens sw ts i / (ts.length : ℚ) :=
      div_nonneg (walkTokens_nonneg sw ts i) (le_of_lt hlen)
    have hcand1 : walkTokens sw ts i / (ts.length : ℚ) ≤ 1 :=
      (div_le_one hlen).mpr (walkTokens_le_length sw ts i)
    by_cases hc : walkTokens sw ts i / (ts.length : ℚ) > b.score
    · have hpos : 0 < walkTokens sw ts i / (ts.length : ℚ) := lt_of_le_of_lt h0 hc
      have hb : bestCandidate sw ts b i =
          ⟨walkTokens sw ts i / (ts.length : ℚ), some i⟩ := by
        simp [bestCandidate, hc]
      rw [hb]
      exact ih _ hcand0 hcand1 (by simp [hpos.ne'])
    · have hb : bestCandidate sw ts b i = b := by
        simp [bestCandidate, hc]
      rw [hb]
      exact ih b h0 h1 h2

/-- C6: for every transcript/window pair the score of `calculateMatch`
lies in `[0, 1]` — the accumulated credit is bounded by the transcript
token count, so no clamping is needed — and an empty transcript (empty
token list) scores exactly 0. -/
theorem calculateMatch_score_bounds (transcript : String) (sw : List String) :
    0 ≤ (calculateMatch transcript sw).score ∧
      (calculateMatch transcript sw).score ≤ 1 ∧
      (transcriptTokens transcript = [] → (calculateMatch transcript sw).score = 0) := by
  by_cases h : transcriptTokens transcript = []
  · simp [calculateMatch, h]
  · have inv := bestFold_invariant sw _ h (List.range sw.length) ⟨0, none⟩
      (by norm_num) (by norm_num) (by simp)
    simp only [calculateMatch]
    rw [if_neg h]
    exact ⟨inv.1, inv.2.1, fun hh => absurd hh h⟩

/-- Witness for C6: the empty transcript scores exactly 0 against the
window `["a"]`. -/
theorem calculateMatch_score_bounds_witness :
    (calculateMatch "" ["a"]).score = 0 :=
  (calculateMatch_score_bounds "" ["a"]).2.2 rfl

lemma calculateMatch_zz : calculateMatch "zz" ["qq"] = ⟨0, none⟩ := by
  have hts : transcriptTokens "zz" = ["zz"] := rfl
  have hm : matchStep ["qq"] "zz" 0 = (0, 0) := rfl
  have hw : walkTokens ["qq"] ["zz"] 0 = 0 := by
    simp only [walkTokens, hm]
    norm_num
  have hr : List.range (1 : ℕ) = [0] := rfl
  simp only [calculateMatch, hts, List.length_cons, List.length_nil, hr,
    List.foldl_cons, List.foldl_nil, bestCandidate, hw]
  norm_num

/-- C3 counterexample: for the non-empty transcript `"zz"` and the
non-empty window `["qq"]`, `calculateMatch` still returns a null
`matchedIndex` (no candidate ever improves on score 0), refuting the
claim that a null `matchedIndex` occurs only for an empty window. -/
theorem calculateMatch_null_on_nonempty_window :
    (calculateMatch "zz" ["qq"]).matchedIndex = none ∧
      (["qq"] : List String) ≠ [] ∧ transcriptTokens "zz" ≠ [] := by
  refine ⟨?_, by simp, by decide⟩
  rw [calculateMatch_zz]

/-- C3 amended: `calculateMatch` returns a null `matchedIndex` exactly
when the best score is 0 (no candidate ever improves on 0) — which
happens for an empty window, but also for non-empty windows where every
candidate scores 0; an empty window always yields
`{score: 0, matchedIndex: null}`. -/
theorem calculateMatch_null_iff_score_zero (transcript : String) (sw : List String) :
    ((calculateMatch transcript sw).matchedIndex = none ↔
      (calculateMatch transcript sw).score = 0) ∧
      (sw = [] → calculateMatch transcript sw = ⟨0, none⟩) := by
  constructor
  · by_cases h : transcriptTokens transcript = []
    · simp [calculateMatch, h]
    · have inv := bestFold_invariant sw _ h (List.range sw.length) ⟨0, none⟩
        (by norm_num) (by norm_num) (by simp)
      simp only [calculateMatch]
      rw [if_neg h]
      exact inv.2.2
  · intro hw
    subst hw
    by_cases h : transcriptTokens transcript = [] <;> simp [calculateMatch, h]

/-- Witness for C3 amended: the empty window yields
`{score: 0, matchedIndex: null}` even for a non-empty transcript. -/
theorem calculateMatch_null_iff_score_zero_witness :
    calculateMatch "zz" [] = ⟨0, none⟩ :=
  (calculateMatch_null_iff_score_zero "zz" []).2 rfl

lemma calculateMatch_hello_world :
    calculateMatch "hello world" demoScript = ⟨1, some 0⟩ := by
  have hts : transcriptTokens "hello world" = ["hello", "world"] := rfl
  have hlen : demoScript.length = 6 := rfl
  have h00 : matchStep demoScript "hello" 0 = (1, 1) := rfl
  have h01 : matchStep demoScript "world" 1 = (1, 2) := rfl
  have h10 : matchStep demoScript "hello" 1 = (0, 2) := rfl
  have h11 : matchStep demoScript "world" 2 = (0, 3) := rfl
  have h20 : matchStep demoScript "hello" 2 = (0, 3) := rfl
  have h21 : matchStep demoScript "world" 3 = (0, 4) := rfl
  have h30 : matchStep demoScript "hello" 3 = (0, 4) := rfl
  have h31 : matchStep demoScript "world" 4 = (0, 5) := rfl
  have h40 : matchStep demoScript "hello" 4 = (0, 5) := rfl
  have h50 : matchStep demoScript "hello" 5 = (0, 5) := rfl
  have h51 : matchStep demoScript "world" 5 = (0, 5) := rfl
  have w0 : walkTokens demoScript ["hello", "world"] 0 = 2 := by
    simp only [walkTokens, hlen, h00, h01]
    norm_num
  have w1 : walkTokens demoScript ["hello", "world"] 1 = 0 := by
    simp only [walkTokens, hlen, h10, h11]
    norm_num
  have w2 : walkTokens demoScript ["hello", "world"] 2 = 0 := by
    simp only [walkTokens, hlen, h20, h21]
    norm_num
  have w3 : walkTokens demoScript ["hello", "world"] 3 = 0 := by
    simp only [walkTokens, hlen, h30, h31]
    norm_num
  have w4 : walkTokens demoScript ["hello", "world"] 4 = 0 := by
    simp only [walkTokens, hlen, h40, h51]
    norm_num
  have w5 : walkTokens demoScript ["hello", "world"] 5 = 0 := by
    simp only [walkTokens, hlen, h50, h51]
    norm_num
  have hr : List.range demoScript.length = [0, 1, 2, 3, 4, 5] := rfl
  simp only [calculateMatch, hts, hr, List.foldl_cons, List.foldl_nil,
    bestCandidate, w0, w1, w2, w3, w4, w5, List.length_cons, List.length_nil]
  norm_num
  decide

lemma transcribeRoute_hello_world :
    transcribeRoute "hello world" demoScript 0 matchThreshold =
      ⟨"hello world", 1, some 0, .RUNNING⟩ := by
  have hne : ¬(jsTrim "hello world" = "") := by decide
  simp only [transcribeRoute, calculateMatch_hello_world]
  rw [if_neg hne]
  norm_num [matchThreshold]

lemma processChunk_hello_world :
    processChunk demoState "hello world" = ⟨.RUNNING, demoScript, 1⟩ := by
  have hwin : jsSlice demoState.scriptWords demoState.currentWordIndex
      (min (demoState.currentWordIndex + matchingWindow)
        (demoState.scriptWords.length : ℤ)) = demoScript := by decide
  show applyResult demoState (transcribeRoute "hello world"
      (jsSlice demoState.scriptWords demoState.currentWordIndex
        (min (demoState.currentWordIndex + matchingWindow)
          (demoState.scriptWords.length : ℤ)))
      demoState.currentWordIndex matchThreshold) = ⟨.RUNNING, demoScript, 1⟩
  rw [hwin]
  have hci : demoState.currentWordIndex = 0 := rfl
  rw [hci, transcribeRoute_hello_world]
  simp [applyResult, demoState]

/-- C1 counterexample: in the end-to-end scenario (script
`["Hello","world","this","is","a","test"]`, `currentIndex = 0`, window
containing all 6 words, transcript `"hello world"`, threshold 0.6), the
`/transcribe` response's absolute `matchedIndex` is not `1` and the
subsequent `currentIndex` is not `2`: `calculateMatch` reports the
*start* of the matched candidate run (window-relative 0), so the
absolute index is `0` and the client advances to `1`. -/
theorem endToEnd_counterexample :
    (transcribeRoute "hello world" demoScript 0 matchThreshold).matchedIndex ≠
        some 1 ∧
      (processChunk demoState "hello world").currentWordIndex ≠ 2 := by
  rw [transcribeRoute_hello_world, processChunk_hello_world]
  exact ⟨by simp, by norm_num⟩

/-- C1 amended: same scenario, but the response carries absolute
`matchedIndex = 0` (the start of the matched run) with state `RUNNING`,
and the subsequent `currentIndex` is `1`. -/
theorem endToEnd_scenario :
    transcribeRoute "hello world" demoScript 0 matchThreshold =
        ⟨"hello world", 1, some 0, .RUNNING⟩ ∧
      (processChunk demoState "hello world").currentWordIndex = 1 ∧
      (processChunk demoState "hello world").status = ClientStatus.RUNNING := by
  rw [transcribeRoute_hello_world, processChunk_hello_world]
  exact ⟨rfl, rfl, rfl⟩

/-- C2: applying a match result through the `/transcribe` handler and
`processAudioChunk`: an empty transcript pauses and leaves the position
unchanged; a result with `score ≥ threshold` (inclusive) and a non-null
relative `matchedIndex = k` sets `currentIndex` to
`windowStart + k + 1` (the window start being the sent `currentIndex`)
and the status to `RUNNING`; a below-threshold score or a null
`matchedIndex` pauses and leaves the position unchanged. -/
theorem applyMatch_cases (st : ClientState) (transcript : String)
    (scriptWindow : List String) (threshold : ℚ) :
    (jsTrim transcript = "" →
      (applyTranscription st transcript scriptWindow threshold).status =
          ClientStatus.PAUSED ∧
        (applyTranscription st transcript scriptWindow threshold).currentWordIndex =
          st.currentWordIndex) ∧
    (∀ k : ℕ, (calculateMatch transcript scriptWindow).matchedIndex = some k →
      threshold ≤ (calculateMatch transcript scriptWindow).score →
      jsTrim transcript ≠ "" →
      (applyTranscription st transcript scriptWindow threshold).currentWordIndex =
          st.currentWordIndex + k + 1 ∧
        (applyTranscription st transcript scriptWindow threshold).status =
          ClientStatus.RUNNING) ∧
    ((calculateMatch transcript scriptWindow).score < threshold →
      (applyTranscription st transcript scriptWindow threshold).status =
          ClientStatus.PAUSED ∧
        (applyTranscription st transcript scriptWindow threshold).currentWordIndex =
          st.currentWordIndex) ∧
    ((calculateMatch transcript scriptWindow).matchedIndex = none →
      (applyTranscription st transcript scriptWindow threshold).status =
          ClientStatus.PAUSED ∧
        (applyTranscription st transcript scriptWindow threshold).currentWordIndex =
          st.currentWordIndex) := by
  by_cases he : jsTrim transcript = ""
  · have hresp : transcribeRoute transcript scriptWindow st.currentWordIndex threshold =
        ⟨"", 0, none, .PAUSED⟩ := by
      simp [transcribeRoute, he]
    refine ⟨fun _ => ?_, fun k _ _ hne => absurd he hne, fun _ => ?_, fun _ => ?_⟩ <;>
      simp [applyTranscription, hresp, applyResult]
  · cases hmi : (calculateMatch transcript scriptWindow).matchedIndex with
    | none =>
      have happ : applyTranscription st transcript scriptWindow threshold =
          { st with status := .PAUSED } := by
        simp only [applyTranscription, transcribeRoute]
        rw [if_neg he]
        by_cases hth : (calculateMatch transcript scriptWindow).score ≥ threshold <;>
          simp [applyResult, hmi, hth]
      refine ⟨fun h => absurd h he,
        fun k hk _ _ => absurd hk (by simp),
        fun _ => ?_, fun _ => ?_⟩ <;> simp [happ]
    | some k =>
      by_cases hth : threshold ≤ (calculateMatch transcript scriptWindow).score
      · have happ : applyTranscription st transcript scriptWindow threshold =
            { st with
              status := .RUNNING,
              currentWordIndex := st.currentWordIndex + k + 1 } := by
          simp only [applyTranscription, transcribeRoute]
          rw [if_neg he]
          simp [applyResult, hmi, ge_iff_le, hth, add_assoc]
        refine ⟨fun h => absurd h he, fun k2 hk2 _ _ => ?_, fun hlt => ?_,
          fun hnone => absurd hnone (by simp)⟩
        · injection hk2 with hk2
          subst hk2
          simp [happ, add_assoc]
        · exact absurd hth (not_le.mpr hlt)
      · have happ : applyTranscription st transcript scriptWindow threshold =
            { st with status := .PAUSED } := by
          simp only [applyTranscription, transcribeRoute]
          rw [if_neg he]
          simp [applyResult, hmi, ge_iff_le, hth]
        refine ⟨fun h => absurd h he, fun k2 hk2 hth2 _ => absurd hth2 ?_,
          fun _ => ?_, fun hnone => absurd hnone (by simp)⟩
        · exact hth
        · simp [happ]

/-- Witness for C2: the end-to-end scenario exercises the advancing
branch — score 1 ≥ 0.6 with relative index 0 gives position 0 + 0 + 1
and status `RUNNING`. -/
theorem applyMatch_cases_witness :
    (applyTranscription demoState "hello world" demoScript
          matchThreshold).currentWordIndex =
        demoState.currentWordIndex + (0 : ℕ) + 1 ∧
      (applyTranscription demoState "hello world" demoScript matchThreshold).status =
        ClientStatus.RUNNING :=
  (applyMatch_cases demoState "hello world" demoScript matchThreshold).2.1 0
    (by rw [calculateMatch_hello_world])
    (by rw [calculateMatch_hello_world]; norm_num [matchThreshold])
    (by decide)

/-- C4 counterexample: with window `["a"]` and transcript token `"b"`,
the cursor is inside the window (position 0 of length 1) and the token
earns no credit, yet the cursor does not advance by 1 — it stays at 0,
because no branch of the source's `if`/`else if` chain fires when the
cursor is on the last window word and nothing matches. -/
theorem matchStep_stuck_counterexample :
    matchStep ["a"] "b" 0 = (0, 0) ∧ (0 : ℕ) < (["a"] : List String).length ∧
      (matchStep ["a"] "b" 0).2 ≠ 0 + 1 := by
  refine ⟨rfl, by norm_num, by decide⟩

/-- C4 amended: processing one transcript token advances the cursor by
2 in the skip-credit case (+0.8) and by exactly 1 on an exact match
(+1), a substring partial match (+0.5), or a no-credit step when a next
window word exists; but when the cursor is on the last window position
and neither an exact nor a partial match fires, the cursor stays put. -/
theorem matchStep_cursor_advance (sw : List String) (t : String) (pos : ℕ)
    (h : pos < sw.length) :
    ((matchStep sw t pos).1 = 1 ∧ (matchStep sw t pos).2 = pos + 1) ∨
    ((matchStep sw t pos).1 = 1/2 ∧ (matchStep sw t pos).2 = pos + 1) ∨
    ((matchStep sw t pos).1 = 4/5 ∧ (matchStep sw t pos).2 = pos + 2) ∨
    ((matchStep sw t pos).1 = 0 ∧ (matchStep sw t pos).2 = pos + 1 ∧
      pos + 1 < sw.length) ∨
    ((matchStep sw t pos).1 = 0 ∧ (matchStep sw t pos).2 = pos ∧
      pos + 1 = sw.length) := by
  simp only [matchStep]
  rw [dif_pos h]
  split_ifs with h1 h2 h3 h4
  · exact Or.inl ⟨rfl, rfl⟩
  · exact Or.inr (Or.inl ⟨rfl, rfl⟩)
  · exact Or.inr (Or.inr (Or.inl ⟨rfl, rfl⟩))
  · exact Or.inr (Or.inr (Or.inr (Or.inl ⟨rfl, rfl, h3⟩)))
  · exact Or.inr (Or.inr (Or.inr (Or.inr ⟨rfl, rfl, by omega⟩)))

/-- Witness for C4 amended: the window `["a"]` with token `"b"` at
cursor 0 realizes the stay-put disjunct. -/
theorem matchStep_cursor_advance_witness :
    (0 : ℕ) < (["a"] : List String).length ∧
      (((matchStep ["a"] "b" 0).1 = 1 ∧ (matchStep ["a"] "b" 0).2 = 0 + 1) ∨
      ((matchStep ["a"] "b" 0).1 = 1/2 ∧ (matchStep ["a"] "b" 0).2 = 0 + 1) ∨
      ((matchStep ["a"] "b" 0).1 = 4/5 ∧ (matchStep ["a"] "b" 0).2 = 0 + 2) ∨
      ((matchStep ["a"] "b" 0).1 = 0 ∧ (matchStep ["a"] "b" 0).2 = 0 + 1 ∧
        0 + 1 < (["a"] : List String).length) ∨
      ((matchStep ["a"] "b" 0).1 = 0 ∧ (matchStep ["a"] "b" 0).2 = 0 ∧
        0 + 1 = (["a"] : List String).length)) :=
  ⟨by norm_num, matchStep_cursor_advance ["a"] "b" 0 (by norm_num)⟩

lemma applyTranscription_index (st : ClientState) (transcript : String)
    (sw : List String) (th : ℚ) :
    (applyTranscription st transcript sw th).currentWordIndex = st.currentWordIndex ∨
      ∃ r : ℕ, (applyTranscription st transcript sw th).currentWordIndex =
        st.currentWordIndex + r + 1 := by
  by_cases he : jsTrim transcript = ""
  · left
    simp [applyTranscription, transcribeRoute, he, applyResult]
  · cases hmi : (calculateMatch transcript sw).matchedIndex with
    | none =>
      left
      simp only [applyTranscription, transcribeRoute]
      rw [if_neg he]
      by_cases hth : (calculateMatch transcript sw).score ≥ th <;>
        simp [applyResult, hmi, hth]
    | some k =>
      by_cases hth : (calculateMatch transcript sw).score ≥ th
      · right
        refine ⟨k, ?_⟩
        simp only [applyTranscription, transcribeRoute]
        rw [if_neg he]
        simp [applyResult, hmi, hth, add_assoc]
      · left
        simp only [applyTranscription, transcribeRoute]
        rw [if_neg he]
        simp [applyResult, hmi, hth]

/-- C5 counterexample: the result-application step of
`processAudioChunk` assigns `result.matchedIndex + 1` unconditionally,
so applying a stale result — one whose absolute index was computed
against an earlier position — moves `currentWordIndex` backward (from 6
to 1 here), refuting the claim that applying a match result never
decreases `currentIndex` in any state and for any result, and that
`jump`/`reset` are the only operations that may move it backward. -/
theorem applyResult_stale_decreases :
    (applyResult ⟨.RUNNING, demoScript, 6⟩
        ⟨"stale", 1, some 0, .RUNNING⟩).currentWordIndex = 1 ∧
      (applyResult ⟨.RUNNING, demoScript, 6⟩
          ⟨"stale", 1, some 0, .RUNNING⟩).currentWordIndex <
        (⟨.RUNNING, demoScript, 6⟩ : ClientState).currentWordIndex :=
  ⟨rfl, by decide⟩

/-- C5 amended: applying a *fresh* match result — the round trip in
which the response's absolute index is computed from the client's
current position, as in `processChunk` — never decreases
`currentWordIndex`, and `start`/`stop` leave the position unchanged;
but `applyResult` itself assigns `matchedIndex + 1` unconditionally, so
besides `jumpToWord` and `resetPosition`, applying a stale result can
also move `currentWordIndex` backward. -/
theorem applyMatch_never_decreases :
    (∀ (st : ClientState) (transcript : String) (sw : List String) (th : ℚ),
      st.currentWordIndex ≤
        (applyTranscription st transcript sw th).currentWordIndex) ∧
    (∀ (st : ClientState) (transcript : String),
      st.currentWordIndex ≤ (processChunk st transcript).currentWordIndex) ∧
    (∀ st : ClientState,
      (startTeleprompter st).currentWordIndex = st.currentWordIndex ∧
        (stopTeleprompter st).currentWordIndex = st.currentWordIndex) ∧
    (∃ (st : ClientState) (i : ℤ),
      (jumpToWord st i).currentWordIndex < st.currentWordIndex) ∧
    (∃ st : ClientState,
      (resetPosition st).currentWordIndex < st.currentWordIndex) ∧
    (∃ (st : ClientState) (r : TranscribeResponse),
      (applyResult st r).currentWordIndex < st.currentWordIndex) := by
  have key : ∀ (st : ClientState) (transcript : String) (sw : List String) (th : ℚ),
      st.currentWordIndex ≤
        (applyTranscription st transcript sw th).currentWordIndex := by
    intro st t sw th
    rcases applyTranscription_index st t sw th with h | ⟨r, h⟩
    · rw [h]
    · rw [h]
      have hr : (0 : ℤ) ≤ (r : ℤ) := Int.ofNat_nonneg r
      linarith
  refine ⟨key, fun st t => ?_, fun st => ⟨rfl, rfl⟩, ?_, ?_, ?_⟩
  · have h := key st t
      (jsSlice st.scriptWords st.currentWordIndex
        (min (st.currentWordIndex + matchingWindow) (st.scriptWords.length : ℤ)))
      matchThreshold
    exact h
  · exact ⟨⟨.IDLE, [], 5⟩, 0, by norm_num [jumpToWord]⟩
  · exact ⟨⟨.IDLE, [], 5⟩, by norm_num [resetPosition]⟩
  · exact ⟨⟨.RUNNING, [], 6⟩, ⟨"stale", 1, some 0, .RUNNING⟩, by decide⟩

/-- C7: in every successful `/transcribe` response, the `matchedIndex`
field is null whenever the response's state is `PAUSED` or the
transcript was empty; a non-null `matchedIndex` occurs only together
with state `RUNNING`. -/
theorem transcribe_null_matchedIndex (transcript : String) (sw : List String)
    (ci : ℤ) (th : ℚ) :
    ((transcribeRoute transcript sw ci th).state = RespState.PAUSED →
      (transcribeRoute transcript sw ci th).matchedIndex = none) ∧
    (jsTrim transcript = "" →
      (transcribeRoute transcript sw ci th).matchedIndex = none) ∧
    (∀ k : ℤ, (transcribeRoute transcript sw ci th).matchedIndex = some k →
      (transcribeRoute transcript sw ci th).state = RespState.RUNNING) := by
  by_cases he : jsTrim transcript = ""
  · have hresp : transcribeRoute transcript sw ci th = ⟨"", 0, none, .PAUSED⟩ := by
      simp [transcribeRoute, he]
    rw [hresp]
    exact ⟨fun _ => rfl, fun _ => rfl, fun k hk => by cases hk⟩
  · cases hmi : (calculateMatch transcript sw).matchedIndex with
    | none =>
      have hresp : (transcribeRoute transcript sw ci th).matchedIndex = none := by
        simp only [transcribeRoute]
        rw [if_neg he]
        by_cases hth : (calculateMatch transcript sw).score ≥ th <;> simp [hmi, hth]
      exact ⟨fun _ => hresp, fun _ => hresp,
        fun k hk => by rw [hresp] at hk; cases hk⟩
    | some k =>
      by_cases hth : (calculateMatch transcript sw).score ≥ th
      · have hstate : (transcribeRoute transcript sw ci th).state = .RUNNING := by
          simp only [transcribeRoute]
          rw [if_neg he]
          simp [hth]
        exact ⟨fun hp => absurd (hstate.symm.trans hp) (by decide),
          fun hemp => absurd hemp he, fun k2 _ => hstate⟩
      · have hresp : (transcribeRoute transcript sw ci th).matchedIndex = none := by
          simp only [transcribeRoute]
          rw [if_neg he]
          simp [hmi, hth]
        exact ⟨fun _ => hresp, fun _ => hresp,
          fun k2 hk2 => by rw [hresp] at hk2; cases hk2⟩

/-- Witness for C7: with transcript `"zz"` and window `["qq"]` the
score is 0, the state is `PAUSED`, and `matchedIndex` is null. -/
theorem transcribe_null_matchedIndex_witness :
    (transcribeRoute "zz" ["qq"] 0 matchThreshold).matchedIndex = none :=
  (transcribe_null_matchedIndex "zz" ["qq"] 0 matchThreshold).1 (by
    have hne : ¬(jsTrim "zz" = "") := by decide
    simp only [transcribeRoute, calculateMatch_zz]
    rw [if_neg hne]
    norm_num [matchThreshold])

/-- C8 counterexample: `jumpToWord` performs no clamping — with a
6-word script, jumping to `-1` leaves `currentWordIndex = -1 < 0` and
jumping to `100` leaves `currentWordIndex = 100 > scriptLength`, both
outside `[0, scriptLength]`. -/
theorem jumpToWord_no_clamp :
    (jumpToWord demoState (-1)).currentWordIndex = -1 ∧
      ¬(0 ≤ (jumpToWord demoState (-1)).currentWordIndex) ∧
      (jumpToWord demoState 100).currentWordIndex = 100 ∧
      ¬((jumpToWord demoState 100).currentWordIndex ≤
          (demoState.scriptWords.length : ℤ)) := by
  refine ⟨rfl, by norm_num [jumpToWord], rfl, ?_⟩
  norm_num [jumpToWord, demoState, demoScript]

/-- C8 amended: `jumpToWord` assigns the given index to
`currentWordIndex` unconditionally — no clamping to `[0, scriptLength]`
takes place, so the result is in range only when the input already
is. -/
theorem jumpToWord_assigns (st : ClientState) (index : ℤ) :
    (jumpToWord st index).currentWordIndex = index := rfl

/-- C9 counterexample: the frontend applies results in completion
order.  With the tracker at position 0, when chunk 2's result (absolute
index 5, `RUNNING`) completes first and chunk 1's result (absolute
index 0, `RUNNING`) completes second, sequence 2 is applied before
sequence 1 — nothing is held back or discarded — and the late
application moves `currentWordIndex` backward from 6 to 1. -/
theorem outOfOrder_applied :
    (applyArrivals demoState
        [⟨2, ⟨"t2", 1, some 5, .RUNNING⟩⟩, ⟨1, ⟨"t1", 1, some 0, .RUNNING⟩⟩]).2 =
        [2, 1] ∧
      (applyResult demoState ⟨"t2", 1, some 5, .RUNNING⟩).currentWordIndex = 6 ∧
      (applyArrivals demoState
        [⟨2, ⟨"t2", 1, some 5, .RUNNING⟩⟩,
          ⟨1, ⟨"t1", 1, some 0, .RUNNING⟩⟩]).1.currentWordIndex = 1 :=
  ⟨rfl, rfl, rfl⟩

/-- C9 amended: match results are applied to the position tracker in
completion (arrival) order, exactly as they arrive: `processAudioChunk`
holds nothing back and discards nothing, so an arrival order that
inverts the sequence numbering is applied inverted. -/
theorem arrivals_applied_in_arrival_order (st : ClientState)
    (arrivals : List ChunkResult) :
    (applyArrivals st arrivals).2 = arrivals.map ChunkResult.sequence := by
  induction arrivals generalizing st with
  | nil => rfl
  | cons r rest ih => simp [applyArrivals, ih]

/-- C10: in every non-empty-transcript `/transcribe` response the
`confidence` field is exactly the fuzzy-match score that
`calculateMatch` computed against the supplied script window — the
route never reads a recognition confidence from the ASR collaborator —
and for an empty transcript it is exactly 0. -/
theorem transcribe_confidence_is_match_score (transcript : String)
    (sw : List String) (ci : ℤ) (th : ℚ) :
    (jsTrim transcript ≠ "" →
      (transcribeRoute transcript sw ci th).confidence =
        (calculateMatch transcript sw).score) ∧
    (jsTrim transcript = "" →
      (transcribeRoute transcript sw ci th).confidence = 0) := by
  by_cases he : jsTrim transcript = ""
  · refine ⟨fun hne => absurd he hne, fun _ => ?_⟩
    simp [transcribeRoute, he]
  · refine ⟨fun _ => ?_, fun hhe => absurd hhe he⟩
    simp only [transcribeRoute]
    rw [if_neg he]

/-- Witness for C10: with transcript `"zz"` and window `["qq"]` the
reported confidence equals the computed match score. -/
theorem transcribe_confidence_is_match_score_witness :
    (transcribeRoute "zz" ["qq"] 0 matchThreshold).confidence =
      (calculateMatch "zz" ["qq"]).score :=
  (transcribe_confidence_is_match_score "zz" ["qq"] 0 matchThreshold).1 (by decide)

end Teleprompter
